import Mathlib

/-!
# Verification of the personal expense tracker (src/expense_tracker.py)

Shallow embedding of the SQLite-backed expense tracker.

Modelling choices:
* The `expenses` table is a `Store`: a list of rows in insertion (rowid)
  order plus the next AUTOINCREMENT id.  AUTOINCREMENT never reuses ids,
  so `nextId` is strictly larger than every id ever assigned.
* SQLite `REAL` amounts are modelled as exact rationals; `ROUND(x, 2)`
  becomes `round2`, ideal decimal rounding (half up, which agrees with
  the SQLite half-away-from-zero rule on the nonnegative amounts the
  schema admits).
* `TEXT` comparison under the default BINARY collation is byte-wise
  comparison of the UTF-8 encoding, which coincides with lexicographic
  comparison of code points (`strLt` below on `String.data`).
* Python truthiness drives the query building: `if start:`/`if end:`/
  `if category:` skip the WHERE clause both for `None` and for the empty
  string, and `if limit:` skips the LIMIT clause for `None` and for `0`.
  Arguments are therefore `Option` values and every clause guard also
  tests for the empty string (resp. zero).
* `ORDER BY` is modelled with `List.insertionSort`; the relations are
  total preorders, and every claim proved below is independent of how
  the sort breaks ties (SQL leaves tie order unspecified).
* Errors (`raise ValueError`) become `Except.error`; the connection
  context manager rolls the transaction back on an exception, so an
  error leaves the store unchanged, which state passing captures by
  not producing a new store.
-/

/-- Byte-wise (code point) strict comparison on character lists, the
SQLite BINARY collation used for `date >= ?`, `date <= ?` and
`ORDER BY date`. -/
def strLtB : List Char → List Char → Bool
  | [], [] => false
  | [], _ :: _ => true
  | _ :: _, [] => false
  | a :: as, b :: bs => if a < b then true else if b < a then false else strLtB as bs

/-- `a < b` on strings under the BINARY collation. -/
def strLt (a b : String) : Bool := strLtB a.data b.data

/-- `a <= b` on strings under the BINARY collation. -/
def strLe (a b : String) : Bool := !(strLt b a)

/-- One row of the `expenses` table:
`id INTEGER PRIMARY KEY AUTOINCREMENT, amount REAL CHECK(amount >= 0),
date TEXT, category TEXT DEFAULT '', note TEXT DEFAULT ''`. -/
structure Expense where
  id : Nat
  amount : ℚ
  date : String
  category : String
  note : String

/-- The database: rows in rowid (insertion) order, plus the next
AUTOINCREMENT id. -/
structure Store where
  nextId : Nat
  rows : List Expense

/-- `ROUND(x, 2)`: round to two decimal places. -/
def round2 (q : ℚ) : ℚ := (⌊q * 100 + 1 / 2⌋ : ℚ) / 100

/-- The `date >= ?` clause: added only when `start` is truthy (`None`
and `""` are falsy, so the clause is dropped for both). -/
def startClause (start : Option String) (e : Expense) : Bool :=
  match start with
  | none => true
  | some s => if s = "" then true else strLe s e.date

/-- The `date <= ?` clause: added only when `end` is truthy. -/
def endClause (end_ : Option String) (e : Expense) : Bool :=
  match end_ with
  | none => true
  | some s => if s = "" then true else strLe e.date s

/-- The `category = ?` clause: added only when `category` is truthy. -/
def categoryClause (category : Option String) (e : Expense) : Bool :=
  match category with
  | none => true
  | some c => if c = "" then true else decide (e.category = c)

/-- The WHERE clauses built identically by `list_expenses` and
`summarize`: the conjunction (`AND`) of the supplied clauses. -/
def rowMatches (start end_ category : Option String) (e : Expense) : Bool :=
  startClause start e && endClause end_ e && categoryClause category e

/-- The filtered row set a query operates on. -/
def matchingRows (st : Store) (start end_ category : Option String) : List Expense :=
  st.rows.filter (rowMatches start end_ category)

/-- `ORDER BY date DESC, id DESC`: row `a` is emitted no later than row
`b`. -/
def expLe (a b : Expense) : Prop :=
  strLt b.date a.date = true ∨ (a.date = b.date ∧ b.id ≤ a.id)

instance : DecidableRel expLe := fun a b => by unfold expLe; infer_instance

/-- The LIMIT clause.  Python truthiness drops the clause for `None`
and `0`; SQLite treats a negative LIMIT as unbounded; both collapse
into the `n ≤ 0` branch. -/
def applyLimit : Option Int → List Expense → List Expense
  | none, rows => rows
  | some n, rows => if n ≤ 0 then rows else rows.take n.toNat

/-- `list_expenses(start, end, category, limit)`:
`SELECT id, amount, date, category, note FROM expenses WHERE ...
ORDER BY date DESC, id DESC [LIMIT ?]`. -/
def list_expenses (st : Store) (start end_ category : Option String)
    (limit : Option Int) : List Expense :=
  applyLimit limit (List.insertionSort expLe (matchingRows st start end_ category))

/-- `add_expense(amount, date, category, note)`: INSERT with the
`CHECK(amount >= 0)` schema constraint; the id is auto-assigned.
`category or ""` and `note or ""` are the identity on strings (the
empty string maps to itself), so both are stored unchanged. -/
def add_expense (st : Store) (amount : ℚ) (date category note : String) :
    Except String Store :=
  if amount < 0 then Except.error "CHECK constraint failed: amount >= 0"
  else Except.ok
    { nextId := st.nextId + 1
      rows := st.rows ++ [⟨st.nextId, amount, date, category, note⟩] }

/-- `update_expense(expense_id, amount, date, category, note)`: the
`sets` list is empty exactly when all four optional fields are `None`;
otherwise `UPDATE expenses SET ... WHERE id = ?` touches the matching
row only, and `rowcount == 0` (no row with that id) raises not-found. -/
def update_expense (st : Store) (expense_id : Nat) (amount : Option ℚ)
    (date category note : Option String) : Except String Store :=
  if amount.isNone && date.isNone && category.isNone && note.isNone then
    Except.error "No fields provided to update."
  else if st.rows.any fun e => decide (e.id = expense_id) then
    Except.ok
      { st with
        rows := st.rows.map fun e =>
          if e.id = expense_id then
            { e with
              amount := amount.getD e.amount
              date := date.getD e.date
              category := category.getD e.category
              note := note.getD e.note }
          else e }
  else Except.error ("Expense id " ++ toString expense_id ++ " not found.")

/-- `delete_expense(expense_id)`: `DELETE FROM expenses WHERE id = ?`;
`rowcount == 0` raises not-found. -/
def delete_expense (st : Store) (expense_id : Nat) : Except String Store :=
  if st.rows.any fun e => decide (e.id = expense_id) then
    Except.ok { st with rows := st.rows.filter fun e => !(decide (e.id = expense_id)) }
  else Except.error ("Expense id " ++ toString expense_id ++ " not found.")

/-- `COALESCE(NULLIF(category, ''), 'uncategorized')`: the group label
of a row in the by-category summary. -/
def grpLabel (c : String) : String := if c = "" then "uncategorized" else c

/-- `substr(date, 1, 7)`: the `YYYY-MM` group label of the by-month
summary (byte positions, which for the ASCII dates the CLI admits are
character positions). -/
def monthOf (d : String) : String := String.mk (d.data.take 7)

/-- `ORDER BY total DESC` on (label, total) pairs. -/
def pairLe (p q : String × ℚ) : Prop := q.2 ≤ p.2

instance : DecidableRel pairLe := fun p q => by unfold pairLe; infer_instance

/-- `ORDER BY grp DESC` on (label, total) pairs. -/
def monthLe (p q : String × ℚ) : Prop := strLt p.1 q.1 = false

instance : DecidableRel monthLe := fun p q => by unfold monthLe; infer_instance

/-- The aggregation over an already-filtered row set.  `GROUP BY grp`
buckets rows by the computed label; which order SQL visits groups in
only affects how `ORDER BY` breaks ties, which SQL leaves unspecified.
In the ungrouped branch `SUM` over the empty set is NULL, and
`total or 0.0` maps both NULL and a falsy `0.0` total to `0.0`. -/
def summarizeRows (matching : List Expense) (by_ : Option String) :
    List (String × ℚ) :=
  if by_ = some "category" then
    List.insertionSort pairLe
      (((matching.map fun e => grpLabel e.category).dedup).map fun l =>
        (l, round2 (((matching.filter fun e =>
          decide (grpLabel e.category = l)).map Expense.amount).sum)))
  else if by_ = some "month" then
    List.insertionSort monthLe
      (((matching.map fun e => monthOf e.date).dedup).map fun l =>
        (l, round2 (((matching.filter fun e =>
          decide (monthOf e.date = l)).map Expense.amount).sum)))
  else
    match
      (if matching.isEmpty then none
       else some (round2 ((matching.map Expense.amount).sum)) : Option ℚ) with
    | none => [("total", 0)]
    | some t => [("total", if t = 0 then 0 else t)]

/-- `summarize(start, end, by, category)`: same WHERE clauses as
`list_expenses`, then one of the three aggregation branches (any `by`
other than `"category"` or `"month"` falls through to the total). -/
def summarize (st : Store) (start end_ : Option String) (by_ : Option String)
    (category : Option String) : List (String × ℚ) :=
  summarizeRows (matchingRows st start end_ category) by_

/-- Spec-side reading (for comparison with `startClause`) of the
`date >= start` conjunct, with no special case for the empty string. -/
def specStart (start : Option String) (e : Expense) : Bool :=
  match start with
  | none => true
  | some s => strLe s e.date

/-- Spec-side reading of the `date <= end` conjunct alone. -/
def specEnd (end_ : Option String) (e : Expense) : Bool :=
  match end_ with
  | none => true
  | some s => strLe e.date s

/-- Spec-side reading of the exact category-equality conjunct alone. -/
def specCategory (category : Option String) (e : Expense) : Bool :=
  match category with
  | none => true
  | some c => decide (e.category = c)

/-- From the words of the specification, for comparison with
`rowMatches`: a row matches when it satisfies the conjunction of all
supplied filters, `date >= start`, `date <= end`, and exact
case-sensitive category equality, with no special case for the empty
string. -/
def specMatches (start end_ category : Option String) (e : Expense) : Bool :=
  specStart start e && specEnd end_ e && specCategory category e

/-- `strLtB` never puts a list before the empty list. -/
theorem strLtB_nil_right (x : List Char) : strLtB x [] = false := by
  cases x <;> rfl

/-- `strLtB` is irreflexive. -/
theorem strLtB_irrefl (x : List Char) : strLtB x x = false := by
  induction x with
  | nil => rfl
  | cons a as ih => simp [strLtB, lt_irrefl, ih]

/-- `strLtB` is transitive. -/
theorem strLtB_trans : ∀ (x y z : List Char),
    strLtB x y = true → strLtB y z = true → strLtB x z = true
  | [], _ :: _, _ :: _, _, _ => rfl
  | [], [], _, h1, _ => by simp [strLtB] at h1
  | [], _ :: _, [], _, h2 => by simp [strLtB_nil_right] at h2
  | _ :: _, [], _, h1, _ => by simp [strLtB_nil_right] at h1
  | _ :: _, _ :: _, [], _, h2 => by simp [strLtB_nil_right] at h2
  | a :: as, b :: bs, c :: cs, h1, h2 => by
    simp only [strLtB] at h1 h2 ⊢
    by_cases hab : a < b
    · by_cases hbc : b < c
      · simp [lt_trans hab hbc]
      · rw [if_neg hbc] at h2
        by_cases hcb : c < b
        · rw [if_pos hcb] at h2; cases h2
        · have hbceq : b = c := le_antisymm (le_of_not_lt hcb) (le_of_not_lt hbc)
          subst hbceq
          simp [hab]
    · rw [if_neg hab] at h1
      by_cases hba : b < a
      · rw [if_pos hba] at h1; cases h1
      · rw [if_neg hba] at h1
        have habeq : a = b := le_antisymm (le_of_not_lt hba) (le_of_not_lt hab)
        subst habeq
        by_cases hac : a < c
        · simp [hac]
        · rw [if_neg hac] at h2 ⊢
          by_cases hca : c < a
          · rw [if_pos hca] at h2; cases h2
          · rw [if_neg hca] at h2 ⊢
            exact strLtB_trans as bs cs h1 h2

/-- Two lists neither of which `strLtB`-precedes the other are equal. -/
theorem strLtB_eq_of_not : ∀ (x y : List Char),
    strLtB x y = false → strLtB y x = false → x = y
  | [], [], _, _ => rfl
  | [], _ :: _, h1, _ => by simp [strLtB] at h1
  | _ :: _, [], _, h2 => by simp [strLtB] at h2
  | a :: as, b :: bs, h1, h2 => by
    simp only [strLtB] at h1 h2
    by_cases hab : a < b
    · rw [if_pos hab] at h1; cases h1
    · by_cases hba : b < a
      · rw [if_pos hba] at h2; cases h2
      · have habeq : a = b := le_antisymm (le_of_not_lt hba) (le_of_not_lt hab)
        subst habeq
        rw [if_neg hab, if_neg hba] at h1 h2
        rw [strLtB_eq_of_not as bs h1 h2]

/-- `strLt` is transitive. -/
theorem strLt_trans {a b c : String} (h1 : strLt a b = true)
    (h2 : strLt b c = true) : strLt a c = true :=
  strLtB_trans a.data b.data c.data h1 h2

/-- Two strings neither of which precedes the other are equal. -/
theorem strLt_eq_of_not {a b : String} (h1 : strLt a b = false)
    (h2 : strLt b a = false) : a = b :=
  String.ext (strLtB_eq_of_not a.data b.data h1 h2)

/-- No string strictly precedes the empty string. -/
theorem strLt_empty_right (s : String) : strLt s "" = false := by
  unfold strLt
  have h : ("" : String).data = [] := rfl
  rw [h]
  exact strLtB_nil_right s.data

/-- The empty string precedes or equals every string. -/
theorem strLe_empty (s : String) : strLe "" s = true := by
  unfold strLe
  rw [strLt_empty_right]
  rfl

/-- The emitted ordering of `ORDER BY date DESC, id DESC` is transitive. -/
theorem expLe_trans : ∀ (a b c : Expense), expLe a b → expLe b c → expLe a c := by
  intro a b c hab hbc
  rcases hab with h1 | ⟨hd1, hi1⟩
  · rcases hbc with h2 | ⟨hd2, hi2⟩
    · exact Or.inl (strLt_trans h2 h1)
    · exact Or.inl (hd2 ▸ h1)
  · rcases hbc with h2 | ⟨hd2, hi2⟩
    · exact Or.inl (by rw [hd1]; exact h2)
    · exact Or.inr ⟨hd1.trans hd2, le_trans hi2 hi1⟩

/-- The emitted ordering of `ORDER BY date DESC, id DESC` is total. -/
theorem expLe_total : ∀ (a b : Expense), expLe a b ∨ expLe b a := by
  intro a b
  by_cases h1 : strLt b.date a.date = true
  · exact Or.inl (Or.inl h1)
  · by_cases h2 : strLt a.date b.date = true
    · exact Or.inr (Or.inl h2)
    · rw [Bool.not_eq_true] at h1 h2
      have hd : a.date = b.date := strLt_eq_of_not h2 h1
      rcases Nat.le_total a.id b.id with h | h
      · exact Or.inr (Or.inr ⟨hd.symm, h⟩)
      · exact Or.inl (Or.inr ⟨hd, h⟩)

/-- A start filter of the empty string builds the same WHERE clauses
as no start filter at all (the clause is dropped by truthiness). -/
theorem rowMatches_start_empty (end_ category : Option String) :
    rowMatches (some "") end_ category = rowMatches none end_ category := by
  funext e
  unfold rowMatches
  simp [startClause]

/-- An end filter of the empty string builds the same WHERE clauses
as no end filter at all. -/
theorem rowMatches_end_empty (start category : Option String) :
    rowMatches start (some "") category = rowMatches start none category := by
  funext e
  unfold rowMatches
  simp [endClause]

/-- A category filter of the empty string builds the same WHERE
clauses as no category filter at all. -/
theorem rowMatches_category_empty (start end_ : Option String) :
    rowMatches start end_ (some "") = rowMatches start end_ none := by
  funext e
  unfold rowMatches
  simp [categoryClause]

/-- The built `date >= ?` clause always agrees with the specification
conjunct: dropping a `date >= ''` clause is harmless because every
string is `>= ''` under the BINARY collation. -/
theorem startClause_eq_spec (start : Option String) (e : Expense) :
    startClause start e = specStart start e := by
  rcases start with _ | s
  · rfl
  · by_cases hs : s = ""
    · subst hs
      simp [startClause, specStart, strLe_empty]
    · simp [startClause, specStart, hs]

/-- The built `date <= ?` clause agrees with the specification
conjunct whenever the supplied end bound is not the empty string. -/
theorem endClause_eq_spec (end_ : Option String) (hend : end_ ≠ some "")
    (e : Expense) : endClause end_ e = specEnd end_ e := by
  rcases end_ with _ | t
  · rfl
  · have ht : t ≠ "" := fun h => hend (by rw [h])
    simp [endClause, specEnd, ht]

/-- The built `category = ?` clause agrees with the specification
conjunct whenever the supplied category is not the empty string. -/
theorem categoryClause_eq_spec (category : Option String)
    (hcat : category ≠ some "") (e : Expense) :
    categoryClause category e = specCategory category e := by
  rcases category with _ | c
  · rfl
  · have hc : c ≠ "" := fun h => hcat (by rw [h])
    simp [categoryClause, specCategory, hc]

/-- With the empty-string cases excluded by hypothesis, the WHERE
clauses the code builds agree with the specification conjunction. -/
theorem rowMatches_eq_specMatches (start end_ category : Option String)
    (hend : end_ ≠ some "") (hcat : category ≠ some "") (e : Expense) :
    rowMatches start end_ category e = specMatches start end_ category e := by
  unfold rowMatches specMatches
  rw [startClause_eq_spec, endClause_eq_spec end_ hend,
    categoryClause_eq_spec category hcat]

/-- Rounding zero gives zero. -/
theorem round2_zero : round2 0 = 0 := by
  unfold round2
  have h : ⌊(0 : ℚ) * 100 + 1 / 2⌋ = 0 := by
    rw [Int.floor_eq_zero_iff, Set.mem_Ico]
    norm_num
  rw [h]
  norm_num

/-- Filtering with an empty-string start bound filters nothing extra. -/
theorem matchingRows_start_empty (st : Store) (end_ category : Option String) :
    matchingRows st (some "") end_ category = matchingRows st none end_ category := by
  unfold matchingRows
  rw [rowMatches_start_empty]

/-- Filtering with an empty-string end bound filters nothing extra. -/
theorem matchingRows_end_empty (st : Store) (start category : Option String) :
    matchingRows st start (some "") category = matchingRows st start none category := by
  unfold matchingRows
  rw [rowMatches_end_empty]

/-- Filtering with an empty-string category filters nothing extra. -/
theorem matchingRows_category_empty (st : Store) (start end_ : Option String) :
    matchingRows st start end_ (some "") = matchingRows st start end_ none := by
  unfold matchingRows
  rw [rowMatches_category_empty]

/-- Claim C10: supplying `start` or `end` as the empty string behaves
identically to omitting that argument, for both `list_expenses` and
`summarize`: the empty-string date bound is silently treated as no
filter, neither compared against stored dates nor rejected. -/
theorem empty_date_filters_ignored (st : Store) (start end_ category : Option String)
    (limit : Option Int) (by_ : Option String) :
    list_expenses st (some "") end_ category limit =
        list_expenses st none end_ category limit ∧
    list_expenses st start (some "") category limit =
        list_expenses st start none category limit ∧
    summarize st (some "") end_ by_ category = summarize st none end_ by_ category ∧
    summarize st start (some "") by_ category = summarize st start none by_ category := by
  refine ⟨?_, ?_, ?_, ?_⟩
  · exact congrArg (fun m => applyLimit limit (List.insertionSort expLe m))
      (matchingRows_start_empty st end_ category)
  · exact congrArg (fun m => applyLimit limit (List.insertionSort expLe m))
      (matchingRows_end_empty st start category)
  · exact congrArg (fun m => summarizeRows m by_)
      (matchingRows_start_empty st end_ category)
  · exact congrArg (fun m => summarizeRows m by_)
      (matchingRows_end_empty st start category)

/-- Claim C1 counterexample: on a store holding an uncategorized row
and a `food` row, `list` with the category filter `""` also returns
the `food` row, so the empty-string filter does not return exactly the
rows whose stored category is the empty string. -/
theorem empty_category_filter_matches_all_rows :
    (list_expenses ⟨3, [⟨1, 10, "2025-01-01", "", ""⟩, ⟨2, 5, "2025-01-02", "food", ""⟩]⟩
        none none (some "") none).all (fun e => decide (e.category = "")) = false := by
  decide

/-- Claim C1 (amended): a category filter equal to the empty string is
treated as the absence of the category filter: `list` and `summarize`
return exactly what they return with no category argument, rather than
only the uncategorized rows (the truthiness check drops the clause). -/
theorem empty_category_filter_is_no_filter (st : Store)
    (start end_ : Option String) (limit : Option Int) (by_ : Option String) :
    list_expenses st start end_ (some "") limit =
        list_expenses st start end_ none limit ∧
    summarize st start end_ by_ (some "") = summarize st start end_ by_ none := by
  refine ⟨?_, ?_⟩
  · exact congrArg (fun m => applyLimit limit (List.insertionSort expLe m))
      (matchingRows_category_empty st start end_)
  · exact congrArg (fun m => summarizeRows m by_)
      (matchingRows_category_empty st start end_)

/-- Claim C2 counterexample: with `limit = 0` supplied, `list` on a
one-row store still returns that row instead of at most zero rows,
because the falsy `0` drops the LIMIT clause. -/
theorem limit_zero_returns_rows :
    ¬ ((list_expenses ⟨2, [⟨1, 7, "2025-01-01", "", ""⟩]⟩
        none none none (some 0)).length ≤ 0) := by
  decide

/-- Claim C2 (amended): for every supplied positive limit N, `list`
returns at most N rows, namely the first N rows of the unlimited
result under the defined ordering; an absent limit is unbounded, and a
zero or negative limit is also treated as unbounded. -/
theorem limit_positive_caps_rows (st : Store) (start end_ category : Option String)
    (n : Int) (hn : 0 < n) :
    list_expenses st start end_ category (some n) =
        (list_expenses st start end_ category none).take n.toNat ∧
    (list_expenses st start end_ category (some n)).length ≤ n.toNat := by
  have h : ¬ n ≤ 0 := not_le.mpr hn
  constructor
  · show applyLimit (some n) _ = (applyLimit none _).take n.toNat
    simp only [applyLimit]
    rw [if_neg h]
  · show (applyLimit (some n) _).length ≤ n.toNat
    simp only [applyLimit]
    rw [if_neg h, List.length_take]
    exact min_le_left _ _

/-- Witness for `limit_positive_caps_rows`: limit 1 on a one-row store. -/
theorem limit_positive_caps_rows_witness :
    (0 : Int) < 1 ∧
    (list_expenses ⟨2, [⟨1, 3, "2025-03-01", "a", "m"⟩]⟩ none none none (some 1) =
        (list_expenses ⟨2, [⟨1, 3, "2025-03-01", "a", "m"⟩]⟩
          none none none none).take (1 : Int).toNat ∧
      (list_expenses ⟨2, [⟨1, 3, "2025-03-01", "a", "m"⟩]⟩
          none none none (some 1)).length ≤ (1 : Int).toNat) :=
  ⟨by decide,
    limit_positive_caps_rows ⟨2, [⟨1, 3, "2025-03-01", "a", "m"⟩]⟩
      none none none 1 (by decide)⟩

/-- Claim C6: `update` with no optional fields supplied fails with the
usage error for every id, and no new store is produced (the
transaction is never started, so the store is unchanged). -/
theorem update_no_fields_usage_error (st : Store) (i : Nat) :
    update_expense st i none none none none =
      Except.error "No fields provided to update." := by
  rfl

/-- Claim C7: when no row has the requested id, `update` with at least
one field supplied and `delete` both fail with the not-found error,
and no new store is produced (the transaction rolls back, and zero
rows were affected anyway). -/
theorem update_delete_not_found (st : Store) (i : Nat) (amount : Option ℚ)
    (date category note : Option String)
    (hne : ∀ e ∈ st.rows, e.id ≠ i)
    (hsome : ¬ (amount = none ∧ date = none ∧ category = none ∧ note = none)) :
    update_expense st i amount date category note =
        Except.error ("Expense id " ++ toString i ++ " not found.") ∧
    delete_expense st i =
        Except.error ("Expense id " ++ toString i ++ " not found.") := by
  have hb : (amount.isNone && date.isNone && category.isNone && note.isNone) = false := by
    cases amount <;> cases date <;> cases category <;> cases note <;> simp_all
  have hany : (st.rows.any fun e => decide (e.id = i)) = false := by
    rw [Bool.eq_false_iff]
    intro hx
    rcases List.any_eq_true.mp hx with ⟨e, he, hpe⟩
    exact hne e he (of_decide_eq_true hpe)
  constructor
  · simp [update_expense, hb, hany]
  · simp [delete_expense, hany]

/-- Witness for `update_delete_not_found`: id 7 on the empty store,
with only the date field supplied. -/
theorem update_delete_not_found_witness :
    (∀ e ∈ (⟨1, []⟩ : Store).rows, e.id ≠ 7) ∧
    ¬ ((none : Option ℚ) = none ∧ (some "2025-01-01" : Option String) = none ∧
        (none : Option String) = none ∧ (none : Option String) = none) ∧
    (update_expense ⟨1, []⟩ 7 none (some "2025-01-01") none none =
        Except.error ("Expense id " ++ toString 7 ++ " not found.") ∧
      delete_expense ⟨1, []⟩ 7 =
        Except.error ("Expense id " ++ toString 7 ++ " not found.")) :=
  ⟨by simp, by simp,
    update_delete_not_found ⟨1, []⟩ 7 none (some "2025-01-01") none none
      (by simp) (by simp)⟩

/-- Claim C3: adding a valid expense to a store whose ids all precede
the AUTOINCREMENT counter succeeds, and an unfiltered `list` then
contains a row holding exactly the four stored values together with a
fresh id distinct from every previously assigned id. -/
theorem add_list_roundtrip (st : Store) (amount : ℚ) (date category note : String)
    (h0 : 0 ≤ amount) (hinv : ∀ e ∈ st.rows, e.id < st.nextId) :
    ∃ st2, add_expense st amount date category note = Except.ok st2 ∧
      (⟨st.nextId, amount, date, category, note⟩ : Expense) ∈
        list_expenses st2 none none none none ∧
      ∀ e ∈ st.rows, e.id ≠ st.nextId := by
  refine ⟨⟨st.nextId + 1, st.rows ++ [⟨st.nextId, amount, date, category, note⟩]⟩,
    ?_, ?_, ?_⟩
  · unfold add_expense
    rw [if_neg (not_lt.mpr h0)]
  · refine (List.perm_insertionSort expLe _).mem_iff.mpr ?_
    unfold matchingRows
    rw [List.filter_eq_self.mpr]
    · simp
    · intro a _
      simp [rowMatches, startClause, endClause, categoryClause]
  · intro e he
    exact Nat.ne_of_lt (hinv e he)

/-- Witness for `add_list_roundtrip`: adding to the empty store. -/
theorem add_list_roundtrip_witness :
    (0 : ℚ) ≤ 0 ∧ (∀ e ∈ (⟨1, []⟩ : Store).rows, e.id < (⟨1, []⟩ : Store).nextId) ∧
    (∃ st2, add_expense ⟨1, []⟩ 0 "2025-05-05" "food" "lunch" = Except.ok st2 ∧
      (⟨(⟨1, []⟩ : Store).nextId, 0, "2025-05-05", "food", "lunch"⟩ : Expense) ∈
        list_expenses st2 none none none none ∧
      ∀ e ∈ (⟨1, []⟩ : Store).rows, e.id ≠ (⟨1, []⟩ : Store).nextId) :=
  ⟨le_refl 0, by simp,
    add_list_roundtrip ⟨1, []⟩ 0 "2025-05-05" "food" "lunch" (le_refl 0) (by simp)⟩

/-- Claim C5: for an existing id and at least one supplied field,
`update` succeeds and changes only the supplied fields of that row:
the id, every unsupplied field, every other row, and the
AUTOINCREMENT counter are unchanged. -/
theorem update_partial_fields (st : Store) (i : Nat) (amount : Option ℚ)
    (date category note : Option String)
    (hsome : ¬ (amount = none ∧ date = none ∧ category = none ∧ note = none))
    (hex : ∃ e ∈ st.rows, e.id = i) :
    ∃ st2, update_expense st i amount date category note = Except.ok st2 ∧
      st2.nextId = st.nextId ∧
      List.Forall₂ (fun old new =>
        (old.id ≠ i → new = old) ∧
        (old.id = i → new.id = old.id ∧
          (∀ a, amount = some a → new.amount = a) ∧
          (amount = none → new.amount = old.amount) ∧
          (∀ d, date = some d → new.date = d) ∧
          (date = none → new.date = old.date) ∧
          (∀ c, category = some c → new.category = c) ∧
          (category = none → new.category = old.category) ∧
          (∀ m, note = some m → new.note = m) ∧
          (note = none → new.note = old.note)))
        st.rows st2.rows := by
  have hb : (amount.isNone && date.isNone && category.isNone && note.isNone) = false := by
    cases amount <;> cases date <;> cases category <;> cases note <;> simp_all
  have hany : (st.rows.any fun e => decide (e.id = i)) = true := by
    rcases hex with ⟨e, he, hei⟩
    exact List.any_eq_true.mpr ⟨e, he, by simp [hei]⟩
  refine ⟨⟨st.nextId, st.rows.map fun e =>
      if e.id = i then
        { e with
          amount := amount.getD e.amount
          date := date.getD e.date
          category := category.getD e.category
          note := note.getD e.note }
      else e⟩, ?_, rfl, ?_⟩
  · simp [update_expense, hb, hany]
  · show List.Forall₂ _ st.rows (st.rows.map _)
    rw [List.forall₂_map_right_iff, List.forall₂_same]
    intro x hx
    by_cases hxi : x.id = i
    · constructor
      · intro hne
        exact absurd hxi hne
      · intro _
        rw [if_pos hxi]
        refine ⟨rfl, ?_, ?_, ?_, ?_, ?_, ?_, ?_, ?_⟩
        · intro a ha
          simp [ha]
        · intro ha
          simp [ha]
        · intro d hd
          simp [hd]
        · intro hd
          simp [hd]
        · intro c hc
          simp [hc]
        · intro hc
          simp [hc]
        · intro m hm
          simp [hm]
        · intro hm
          simp [hm]
    · constructor
      · intro _
        rw [if_neg hxi]
      · intro h
        exact absurd h hxi

/-- Witness for `update_partial_fields`: only the category supplied,
on a one-row store. -/
theorem update_partial_fields_witness :
    ¬ ((none : Option ℚ) = none ∧ (none : Option String) = none ∧
        (some "x" : Option String) = none ∧ (none : Option String) = none) ∧
    (∃ e ∈ (⟨2, [⟨1, 9, "2025-04-01", "c", "n"⟩]⟩ : Store).rows, e.id = 1) ∧
    (∃ st2, update_expense ⟨2, [⟨1, 9, "2025-04-01", "c", "n"⟩]⟩ 1
          none none (some "x") none = Except.ok st2 ∧
      st2.nextId = (⟨2, [⟨1, 9, "2025-04-01", "c", "n"⟩]⟩ : Store).nextId ∧
      List.Forall₂ (fun old new =>
        (old.id ≠ 1 → new = old) ∧
        (old.id = 1 → new.id = old.id ∧
          (∀ a, (none : Option ℚ) = some a → new.amount = a) ∧
          ((none : Option ℚ) = none → new.amount = old.amount) ∧
          (∀ d, (none : Option String) = some d → new.date = d) ∧
          ((none : Option String) = none → new.date = old.date) ∧
          (∀ c, (some "x" : Option String) = some c → new.category = c) ∧
          ((some "x" : Option String) = none → new.category = old.category) ∧
          (∀ m, (none : Option String) = some m → new.note = m) ∧
          ((none : Option String) = none → new.note = old.note)))
        (⟨2, [⟨1, 9, "2025-04-01", "c", "n"⟩]⟩ : Store).rows st2.rows) :=
  ⟨by simp, ⟨⟨1, 9, "2025-04-01", "c", "n"⟩, by simp, rfl⟩,
    update_partial_fields ⟨2, [⟨1, 9, "2025-04-01", "c", "n"⟩]⟩ 1
      none none (some "x") none (by simp)
      ⟨⟨1, 9, "2025-04-01", "c", "n"⟩, by simp, rfl⟩⟩

/-- Claim C8: with `by` absent, `summarize` returns exactly the single
pair `("total", s)` with `s` the rounded sum of the matching amounts,
and in particular the pair `("total", 0)` (never a missing result)
when no rows match. -/
theorem summarize_total_rounded_sum (st : Store) (start end_ category : Option String) :
    summarize st start end_ none category =
        [("total",
          round2 (((matchingRows st start end_ category).map Expense.amount).sum))] ∧
    (matchingRows st start end_ category = [] →
      summarize st start end_ none category = [("total", 0)]) := by
  have hmain : summarize st start end_ none category =
      [("total",
        round2 (((matchingRows st start end_ category).map Expense.amount).sum))] := by
    unfold summarize summarizeRows
    rw [if_neg (by simp : ¬ (none : Option String) = some "category"),
      if_neg (by simp : ¬ (none : Option String) = some "month")]
    by_cases hM : (matchingRows st start end_ category).isEmpty
    · have hnil : matchingRows st start end_ category = [] := List.isEmpty_iff.mp hM
      rw [if_pos hM, hnil]
      show [("total", 0)] = _
      simp [round2_zero]
    · rw [if_neg hM]
      show [("total",
        if round2 (((matchingRows st start end_ category).map Expense.amount).sum) = 0
        then 0
        else round2 (((matchingRows st start end_ category).map Expense.amount).sum))] = _
      by_cases ht :
          round2 (((matchingRows st start end_ category).map Expense.amount).sum) = 0
      · rw [if_pos ht, ht]
      · rw [if_neg ht]
  refine ⟨hmain, fun hnil => ?_⟩
  rw [hmain, hnil]
  simp [round2_zero]

/-- Claim C9 counterexample: with an uncategorized row and a row whose
category is literally `uncategorized`, the matching rows have two
distinct categories but the by-category summary returns a single pair,
because grouping happens on the substituted label, not the category. -/
theorem summarize_category_label_collision :
    (summarize ⟨3, [⟨1, 10, "2025-01-15", "", ""⟩, ⟨2, 5, "2025-01-20", "uncategorized", ""⟩]⟩
        none none (some "category") none).length ≠
      (((⟨3, [⟨1, 10, "2025-01-15", "", ""⟩,
            ⟨2, 5, "2025-01-20", "uncategorized", ""⟩]⟩ : Store).rows.map
          Expense.category).dedup).length := by
  decide

/-- Claim C9 (amended): `summarize` with `by = "category"` returns one
pair per distinct group label among the matching rows (the label of a
row is its category, with the empty string replaced by
`uncategorized`), each carrying the rounded total of its group,
ordered by total descending. -/
theorem summarize_by_category_groups (st : Store) (start end_ category : Option String) :
    ((summarize st start end_ (some "category") category).map Prod.fst).Perm
        (((matchingRows st start end_ category).map fun e => grpLabel e.category).dedup) ∧
    (∀ p ∈ summarize st start end_ (some "category") category,
      p.2 = round2 ((((matchingRows st start end_ category).filter fun e =>
          decide (grpLabel e.category = p.1)).map Expense.amount).sum)) ∧
    (summarize st start end_ (some "category") category).Pairwise
        (fun p q => q.2 ≤ p.2) := by
  have hsum : summarize st start end_ (some "category") category =
      List.insertionSort pairLe
        ((((matchingRows st start end_ category).map fun e =>
            grpLabel e.category).dedup).map fun l =>
          (l, round2 ((((matchingRows st start end_ category).filter fun e =>
            decide (grpLabel e.category = l)).map Expense.amount).sum))) := by
    unfold summarize summarizeRows
    rw [if_pos rfl]
  rw [hsum]
  refine ⟨?_, ?_, ?_⟩
  · refine ((List.perm_insertionSort pairLe _).map Prod.fst).trans ?_
    rw [List.map_map]
    have hid : (Prod.fst ∘ fun l : String =>
        (l, round2 ((((matchingRows st start end_ category).filter fun e =>
          decide (grpLabel e.category = l)).map Expense.amount).sum))) = id :=
      funext fun l => rfl
    rw [hid, List.map_id]
  · intro p hp
    have hp2 := (List.perm_insertionSort pairLe _).mem_iff.mp hp
    rcases List.mem_map.mp hp2 with ⟨l, _, hpl⟩
    rw [← hpl]
  · haveI hTr : IsTrans (String × ℚ) pairLe := ⟨fun a b c hab hbc => le_trans hbc hab⟩
    haveI hTo : IsTotal (String × ℚ) pairLe := ⟨fun a b => (le_total b.2 a.2).imp id id⟩
    exact List.sorted_insertionSort pairLe _

/-- Claim C4 counterexample: a supplied empty-string category filter
returns a row whose category is `rent`, so the returned rows do not
all satisfy the conjunction of the supplied filters. -/
theorem empty_category_filter_breaks_conjunction :
    (list_expenses ⟨3, [⟨1, 4, "2025-02-01", "", ""⟩, ⟨2, 6, "2025-02-02", "rent", ""⟩]⟩
        none none (some "") none).all (specMatches none none (some "")) = false := by
  decide

/-- Claim C4 (amended): provided no supplied `end` or `category` filter
is the empty string (those are silently dropped) and row ids are
distinct, `list` returns exactly the rows satisfying the conjunction
of the supplied filters, date greater or equal to start, date less or
equal to end, category exactly equal, ordered by date descending with
id descending as tie-break.  A supplied empty-string `start` needs no
exclusion: every date satisfies `date >= ''`. -/
theorem list_returns_filtered_sorted (st : Store) (start end_ category : Option String)
    (hend : end_ ≠ some "") (hcat : category ≠ some "")
    (hids : st.rows.Pairwise fun a b => a.id ≠ b.id) :
    (list_expenses st start end_ category none).Perm
        (st.rows.filter (specMatches start end_ category)) ∧
    (list_expenses st start end_ category none).Pairwise
        (fun a b => strLt b.date a.date = true ∨ (a.date = b.date ∧ b.id < a.id)) := by
  have hfe : matchingRows st start end_ category =
      st.rows.filter (specMatches start end_ category) := by
    unfold matchingRows
    exact List.filter_congr fun x _ =>
      rowMatches_eq_specMatches start end_ category hend hcat x
  constructor
  · show (List.insertionSort expLe (matchingRows st start end_ category)).Perm _
    rw [hfe]
    exact List.perm_insertionSort expLe _
  · haveI hTr : IsTrans Expense expLe := ⟨expLe_trans⟩
    haveI hTo : IsTotal Expense expLe := ⟨expLe_total⟩
    have hs : (List.insertionSort expLe (matchingRows st start end_ category)).Pairwise
        expLe :=
      List.sorted_insertionSort expLe _
    have hnd : (List.insertionSort expLe (matchingRows st start end_ category)).Pairwise
        (fun a b => a.id ≠ b.id) :=
      ((List.perm_insertionSort expLe _).pairwise_iff fun h => Ne.symm h).mpr
        (hids.filter _)
    show (List.insertionSort expLe (matchingRows st start end_ category)).Pairwise _
    refine (hs.and hnd).imp ?_
    intro a b h
    rcases h with ⟨hle, hne⟩
    rcases hle with h1 | ⟨hd, hi⟩
    · exact Or.inl h1
    · exact Or.inr ⟨hd, Nat.lt_of_le_of_ne hi (Ne.symm hne)⟩

/-- Witness for `list_returns_filtered_sorted`: two rows, no filters. -/
theorem list_returns_filtered_sorted_witness :
    ((none : Option String) ≠ some "") ∧
    ((⟨3, [⟨1, 4, "2025-02-01", "food", "a"⟩, ⟨2, 6, "2025-02-02", "", "b"⟩]⟩ :
        Store).rows.Pairwise fun a b => a.id ≠ b.id) ∧
    ((list_expenses ⟨3, [⟨1, 4, "2025-02-01", "food", "a"⟩, ⟨2, 6, "2025-02-02", "", "b"⟩]⟩
          none none none none).Perm
        ((⟨3, [⟨1, 4, "2025-02-01", "food", "a"⟩, ⟨2, 6, "2025-02-02", "", "b"⟩]⟩ :
          Store).rows.filter (specMatches none none none)) ∧
      (list_expenses ⟨3, [⟨1, 4, "2025-02-01", "food", "a"⟩, ⟨2, 6, "2025-02-02", "", "b"⟩]⟩
          none none none none).Pairwise
        (fun a b => strLt b.date a.date = true ∨ (a.date = b.date ∧ b.id < a.id))) :=
  ⟨by simp, by decide,
    list_returns_filtered_sorted
      ⟨3, [⟨1, 4, "2025-02-01", "food", "a"⟩, ⟨2, 6, "2025-02-02", "", "b"⟩]⟩
      none none none (by simp) (by simp) (by decide)⟩
